import Mathlib

/-!
Shallow embedding of the event-log ABI engine of `web3/utils/events.py`
(event-topic construction and event-log decoding), together with theorems
checking its natural-language specification.

External collaborators (the ABI codec `eth_abi.encode_single` /
`decode_single` / `decode_abi`, the Keccak-256 hash, and the signature-topic
helper `eth_utils.event_abi_to_log_topic`) are treated as injected
capabilities, i.e. function parameters of the embedded operations, exactly
as the spec's design notes prescribe.  Byte strings are `List Nat` with
every byte below 256; hex rendering is concrete.
-/

/-- A Python value as it flows through the event-filter code: the wildcard
`None`, a text string, an integer, a list, or a byte string. -/
inductive PyVal where
  | none_ : PyVal
  | str : String → PyVal
  | int : Int → PyVal
  | list : List PyVal → PyVal
  | bytes : List Nat → PyVal

/-- Errors raised by the embedded operations (structured rather than
formatted, so that the error class and payload are explicit). -/
inductive Err where
  | mismatchedABI : String → Err
  | valueErrorCount : Nat → Nat → Err
  | valueErrorDup : List String → Err
  | valueErrorArgCount : Err
  | typeError : String → Err
  | attributeError : String → Err
  deriving DecidableEq, Repr

/-- Lowercase hex digit for a nibble, as `binascii.hexlify` renders it. -/
def hexDigitChar (n : Nat) : Char :=
  Char.ofNat (if n < 10 then 48 + n else 87 + n)

/-- The two hex digits of one byte. -/
def byteHexChars (b : Nat) : List Char :=
  [hexDigitChar (b / 16), hexDigitChar (b % 16)]

/-- Hex digits of a byte string. -/
def hexChars (bs : List Nat) : List Char :=
  bs.foldr (fun b acc => byteHexChars b ++ acc) []

/-- `eth_utils.encode_hex`: `0x`-prefixed lowercase hex rendering of a byte
string. -/
def encodeHex (bs : List Nat) : String :=
  String.mk ('0' :: 'x' :: hexChars bs)

/-- Value of a lowercase hex digit character. -/
def digitVal (c : Char) : Nat :=
  if 48 ≤ c.toNat ∧ c.toNat ≤ 57 then c.toNat - 48 else c.toNat - 87

/-- Decode hex digit characters two at a time back into bytes. -/
def hexPairsDecode : List Char → List Nat
  | a :: b :: rest => (digitVal a * 16 + digitVal b) :: hexPairsDecode rest
  | _ => []

/-- Left inverse of `encodeHex` on valid byte strings: strip the `0x` and
decode digit pairs. -/
def decodeHexStr (s : String) : List Nat :=
  hexPairsDecode (s.data.drop 2)

/-- A byte string is valid when every entry is an actual byte. -/
def validBytes (bs : List Nat) : Prop := ∀ b ∈ bs, b < 256

theorem digitVal_hexDigitChar : ∀ d : Fin 16, digitVal (hexDigitChar d.val) = d.val := by
  decide

theorem hexPairsDecode_hexChars (bs : List Nat) (h : validBytes bs) :
    hexPairsDecode (hexChars bs) = bs := by
  induction bs with
  | nil => rfl
  | cons b rest ih =>
    have hb : b < 256 := h b (List.mem_cons_self b rest)
    have hrest : validBytes rest := fun x hx => h x (List.mem_cons_of_mem b hx)
    have hdiv : b / 16 < 16 := by omega
    have hmod : b % 16 < 16 := Nat.mod_lt _ (by omega)
    have h1 : digitVal (hexDigitChar (b / 16)) = b / 16 :=
      digitVal_hexDigitChar ⟨b / 16, hdiv⟩
    have h2 : digitVal (hexDigitChar (b % 16)) = b % 16 :=
      digitVal_hexDigitChar ⟨b % 16, hmod⟩
    have hbeq : b / 16 * 16 + b % 16 = b := by omega
    show (digitVal (hexDigitChar (b / 16)) * 16 + digitVal (hexDigitChar (b % 16))) ::
        hexPairsDecode (hexChars rest) = b :: rest
    rw [h1, h2, ih hrest, hbeq]

theorem decodeHexStr_encodeHex (bs : List Nat) (h : validBytes bs) :
    decodeHexStr (encodeHex bs) = bs := by
  simpa [decodeHexStr, encodeHex] using hexPairsDecode_hexChars bs h

theorem encodeHex_injOn (bs cs : List Nat) (hb : validBytes bs) (hc : validBytes cs)
    (h : encodeHex bs = encodeHex cs) : bs = cs := by
  have := congrArg decodeHexStr h
  rwa [decodeHexStr_encodeHex bs hb, decodeHexStr_encodeHex cs hc] at this

/-- One event input parameter of an ABI event descriptor: `name`, canonical
`type` string, and the `indexed` flag. -/
structure InputParam where
  name : String
  type : String
  indexed : Bool
  deriving DecidableEq, Repr

/-- An ABI event descriptor as produced by contract ABI JSON. -/
structure EventABI where
  name : String
  anonymous : Bool
  inputs : List InputParam
  deriving DecidableEq, Repr

/-- Modelled from the spec: `web3.utils.abi.get_indexed_event_inputs` (the
module is not part of the verified sources) — the indexed inputs of the
descriptor, in declaration order. -/
def getIndexedEventInputs (abi : EventABI) : List InputParam :=
  abi.inputs.filter (fun arg => arg.indexed)

/-- Modelled from the spec: `web3.utils.abi.exclude_indexed_event_inputs`
(the module is not part of the verified sources) — the non-indexed inputs of
the descriptor, in declaration order. -/
def excludeIndexedEventInputs (abi : EventABI) : List InputParam :=
  abi.inputs.filter (fun arg => !arg.indexed)

/-- Modelled from the spec: `web3.utils.abi.get_abi_input_names` (the module
is not part of the verified sources) — the names of the given inputs, in
order. -/
def getAbiInputNames (inputs : List InputParam) : List String :=
  inputs.map (fun arg => arg.name)

/-- Modelled from the spec: `web3.utils.abi.normalize_event_input_types`
(the module is not part of the verified sources).  The spec's data model
fixes canonical ABI type notation for descriptors, on which the
normalization is the identity. -/
def normalizeEventInputTypes (inputs : List InputParam) : List InputParam :=
  inputs

/-- Modelled from the spec: `web3.utils.abi.map_abi_data` applied to the
standard return normalizers (the module is not part of the verified
sources) — apply the injected per-type output normalizer to each decoded
value. -/
def mapAbiData {α : Type} (norm : String → α → α) (types : List String)
    (vals : List α) : List α :=
  (types.zip vals).map (fun tv => norm tv.1 tv.2)

/-- Numeric value of a digit string, as `int(s)` reads it. -/
def natFromDigits (cs : List Char) : Nat :=
  cs.foldl (fun acc c => acc * 10 + (c.toNat - 48)) 0

/-- Parse the trailing `[..]` array-dimension groups of an ABI type string:
`[2][]` becomes `[some 2, none]`.  Fuel-driven so that it reduces by
`decide`/`rfl` on concrete type strings. -/
def bracketGroupsAux : Nat → List Char → List (Option Nat)
  | 0, _ => []
  | _ + 1, [] => []
  | fuel + 1, c :: rest =>
    if c = '[' then
      let inner := rest.takeWhile (fun d => d ≠ ']')
      let rest2 := (rest.dropWhile (fun d => d ≠ ']')).drop 1
      (if inner.isEmpty then none else some (natFromDigits inner)) ::
        bracketGroupsAux fuel rest2
    else
      bracketGroupsAux fuel rest

def bracketGroups (cs : List Char) : List (Option Nat) :=
  bracketGroupsAux cs.length cs

/-- `eth_abi.abi.process_type` (external codec primitive, modelled from its
documented regex split): base type, size suffix, array-dimension list. -/
def process_type (t : String) : String × String × List (Option Nat) :=
  let cs := t.data
  let pre := cs.takeWhile (fun c => c ≠ '[')
  let arr := cs.dropWhile (fun c => c ≠ '[')
  (String.mk (pre.takeWhile Char.isLower),
   String.mk (pre.dropWhile Char.isLower),
   bracketGroups arr)

/-- `is_dynamic_sized_type` from `web3/utils/events.py`: an ABI type is
dynamically sized when it has any array dimension, or its base type is
`string`, or it is unsized `bytes`. -/
def is_dynamic_sized_type (t : String) : Bool :=
  let p := process_type t
  if p.2.2 ≠ [] then true
  else if p.1 = "string" then true
  else if p.1 = "bytes" ∧ p.2.1 = "" then true
  else false

example : is_dynamic_sized_type "string" = true := by decide
example : is_dynamic_sized_type "bytes" = true := by decide
example : is_dynamic_sized_type "bytes32" = false := by decide
example : is_dynamic_sized_type "uint256" = false := by decide
example : is_dynamic_sized_type "address" = false := by decide
example : is_dynamic_sized_type "uint256[2]" = true := by decide
example : is_dynamic_sized_type "string[]" = true := by decide
example : is_dynamic_sized_type "bool" = false := by decide

/-- `get_event_abi_types_for_decoding` from `web3/utils/events.py`: event
logs store `sha3(value)` for dynamically sized indexed inputs, so their
decode type is substituted with `bytes32`. -/
def get_event_abi_types_for_decoding (event_inputs : List InputParam) : List String :=
  event_inputs.map (fun input_abi =>
    if input_abi.indexed && is_dynamic_sized_type input_abi.type then "bytes32"
    else input_abi.type)

/-- The two forms of the `arguments` parameter of the combination builders:
a mapping from parameter name to value (modelled as an insertion-ordered
association list, like a Python dict), or a positional sequence. -/
inductive Arguments where
  | mapArgs : List (String × PyVal) → Arguments
  | posArgs : List PyVal → Arguments

/-- First-match association-list lookup (`dict.get` on the model). -/
def alookup : List (String × PyVal) → String → Option PyVal
  | [], _ => none
  | kv :: rest, n => if kv.1 = n then some kv.2 else alookup rest n

/-- `dict.get(name, default)`. -/
def alookupD (m : List (String × PyVal)) (n : String) (d : PyVal) : PyVal :=
  (alookup m n).getD d

/-- `value if is_list_like(value) else [value]` — a non-list value becomes a
singleton list (strings and bytes are not list-like in `eth_utils`). -/
def pyListify (v : PyVal) : PyVal :=
  match v with
  | PyVal.list xs => PyVal.list xs
  | w => PyVal.list [w]

/-- Iterate the elements of a (normalized) Python list value. -/
def pyElems (v : PyVal) : List PyVal :=
  match v with
  | PyVal.list xs => xs
  | w => [w]

/-- Cartesian product of a list of alternative lists, leftmost factor
slowest, as `itertools.product` enumerates it. -/
def prodLists {α : Type} : List (List α) → List (List α)
  | [] => [[]]
  | l :: rest => (l.map (fun x => (prodLists rest).map (fun p => x :: p))).flatten

/-- The encoded-alternatives table shared by both combination builders:
for each relevant parameter, its options with `None` kept as a wildcard and
every other option rendered as `encode_hex(encode_single(type, option))`. -/
def encodedArgOptions (enc : String → PyVal → List Nat)
    (params : List InputParam) (normalized_args : List (String × PyVal)) :
    List (List (Option String)) :=
  params.map (fun arg =>
    (pyElems (alookupD normalized_args arg.name (PyVal.list [PyVal.none_]))).map
      (fun option =>
        match option with
        | PyVal.none_ => (none : Option String)
        | v => some (encodeHex (enc arg.type v))))

/-- Build a Python dict (insertion-ordered association list) from key-value
pairs: a later duplicate of a key overwrites the earlier value in place. -/
def dictFromPairs {β : Type} (pairs : List (String × β)) : List (String × β) :=
  pairs.foldl (fun d kv =>
    if (d.map Prod.fst).contains kv.1 then
      d.map (fun kv2 => if kv2.1 = kv.1 then (kv2.1, kv.2) else kv2)
    else d ++ [kv]) []

/-- Resolve the `arguments` parameter of the combination builders (lines
52-64 and 94-106 of `web3/utils/events.py`): a positional sequence must
match the input count and is turned into a name-keyed mapping of singleton
lists. -/
def resolveArguments (event_abi : EventABI) (arguments : Arguments) :
    Except Err (List (String × PyVal)) :=
  match arguments with
  | Arguments.mapArgs m => Except.ok m
  | Arguments.posArgs vals =>
    if vals.length ≠ event_abi.inputs.length then
      Except.error Err.valueErrorArgCount
    else
      Except.ok (dictFromPairs ((event_abi.inputs.zip vals).map
        (fun av => (av.1.name, PyVal.list [av.2]))))

/-- `construct_event_topic_set` from `web3/utils/events.py`: normalize the
argument mapping, build the encoded alternatives of every indexed
parameter, and emit one topic vector per element of the cartesian product,
each prefixed by the hex-rendered signature topic; an all-wildcard
combination collapses to the signature-only vector.  The signature-topic
helper `eth_utils.event_abi_to_log_topic` is the injected `sig`. -/
def construct_event_topic_set (enc : String → PyVal → List Nat)
    (sig : EventABI → List Nat) (event_abi : EventABI) (arguments : Arguments) :
    Except Err (List (List (Option String))) := do
  let args ← resolveArguments event_abi arguments
  let normalized_args := args.map (fun kv => (kv.1, pyListify kv.2))
  let event_topic := encodeHex (sig event_abi)
  let indexed_args := getIndexedEventInputs event_abi
  let encoded_args := encodedArgOptions enc indexed_args normalized_args
  let topics := (prodLists encoded_args).map (fun permutation =>
    if permutation.any (fun value => value.isSome) then
      some event_topic :: permutation
    else
      [some event_topic])
  pure topics

/-- `construct_event_data_set` from `web3/utils/events.py`: identical to
the topic-set builder but over the non-indexed parameters, with no
signature prefix; an all-wildcard combination collapses to the empty
vector. -/
def construct_event_data_set (enc : String → PyVal → List Nat)
    (event_abi : EventABI) (arguments : Arguments) :
    Except Err (List (List (Option String))) := do
  let args ← resolveArguments event_abi arguments
  let normalized_args := args.map (fun kv => (kv.1, pyListify kv.2))
  let non_indexed_args := excludeIndexedEventInputs event_abi
  let encoded_args := encodedArgOptions enc non_indexed_args normalized_args
  let data := (prodLists encoded_args).map (fun permutation =>
    if permutation.any (fun value => value.isSome) then
      permutation
    else
      ([] : List (Option String)))
  pure data

/-- `_normalize` from `web3/utils/events.py` (the identity). -/
def pyNormalizeValue (value : PyVal) : PyVal :=
  value

/-- `ArgumentFilter` from `web3/utils/events.py`.  The constructor also
receives a `name`, which the source does not store.  `raw_match_values` and
`encoded_match_values` start as the singleton wildcard `(None,)`. -/
structure ArgumentFilter where
  arg_type : String
  is_indexed : Bool
  raw_match_values : List PyVal
  encoded_match_values : List (Option String)
  is_dynamic : Bool

/-- `ArgumentFilter.__init__`. -/
def mkArgumentFilter (arg_type : String) (_name : String) (indexed : Bool) :
    ArgumentFilter :=
  { arg_type := arg_type
    is_indexed := indexed
    raw_match_values := [PyVal.none_]
    encoded_match_values := [none]
    is_dynamic := is_dynamic_sized_type arg_type }

/-- `ArgumentFilter._encode`: ABI-encode the value; an indexed matcher of a
dynamically sized type hex-renders the Keccak-256 hash of the encoding,
every other matcher hex-renders the raw encoding. -/
def ArgumentFilter.encodeValue (enc : String → PyVal → List Nat)
    (kec : List Nat → List Nat) (f : ArgumentFilter) (value : PyVal) : String :=
  let encoded_value := enc f.arg_type value
  if f.is_indexed && f.is_dynamic then
    encodeHex (kec encoded_value)
  else
    encodeHex encoded_value

/-- `ArgumentFilter.match_single`. -/
def ArgumentFilter.match_single (enc : String → PyVal → List Nat)
    (kec : List Nat → List Nat) (f : ArgumentFilter) (value : PyVal) :
    ArgumentFilter :=
  let normalized := pyNormalizeValue value
  let encoded := f.encodeValue enc kec normalized
  { f with
    raw_match_values := [normalized]
    encoded_match_values := [some encoded] }

/-- `ArgumentFilter.match_any`. -/
def ArgumentFilter.match_any (enc : String → PyVal → List Nat)
    (kec : List Nat → List Nat) (f : ArgumentFilter) (values : List PyVal) :
    ArgumentFilter :=
  let normalized := values.map pyNormalizeValue
  let encoded := normalized.map (fun value => some (f.encodeValue enc kec value))
  { f with
    raw_match_values := normalized
    encoded_match_values := encoded }

/-- One position of a topic constraint list: the wildcard `None`, a scalar
(hex string) value, or an OR-list of positions. -/
inductive TopicPos where
  | wild : TopicPos
  | val : String → TopicPos
  | orList : List TopicPos → TopicPos

/-- Python `==` against `None` for a topic position. -/
def TopicPos.isWild : TopicPos → Bool
  | TopicPos.wild => true
  | _ => false

/-- The per-position step of `pop_singlets`: a single-element list becomes
its bare element. -/
def popSinglet : TopicPos → TopicPos
  | TopicPos.orList [x] => x
  | p => p

/-- `pop_singlets` from `web3/utils/events.py`: replace every position that
is a single-element list by its bare element. -/
def pop_singlets (seq : List TopicPos) : List TopicPos :=
  seq.map popSinglet

/-- `remove_trailing_from_seq(remove_value=None)` from
`web3/utils/events.py`: drop positions equal to `None` from the right end. -/
def remove_trailing_from_seq (seq : List TopicPos) : List TopicPos :=
  (seq.reverse.dropWhile TopicPos.isWild).reverse

/-- `normalize_topic_list`: unwrap singleton OR-lists, then trim trailing
wildcards. -/
def normalize_topic_list (seq : List TopicPos) : List TopicPos :=
  remove_trailing_from_seq (pop_singlets seq)

/-- The value held in `EventFilterBuilder.event_topic`: the signature hash
bytes for a non-anonymous event, or the empty Python list that
`_initial_event_topic` returns for an anonymous one. -/
inductive EventTopicVal where
  | hash : List Nat → EventTopicVal
  | emptyList : EventTopicVal

/-- `eth_utils.to_hex` applied to the builder's `event_topic` value: a byte
string is hex-rendered, a list is not a supported input and raises
`TypeError`. -/
def toHexEventTopic : EventTopicVal → Except Err String
  | EventTopicVal.hash bs => Except.ok (encodeHex bs)
  | EventTopicVal.emptyList =>
    Except.error (Err.typeError "Unsupported type: list")

/-- `EventFilterBuilder` from `web3/utils/events.py`: the descriptor, the
`_initial_event_topic()` value, and the per-input argument filters (a dict
keyed by input name, built by `_init_argument_filters`). -/
structure EventFilterBuilder where
  event_abi : EventABI
  event_topic : EventTopicVal
  args : List (String × ArgumentFilter)

/-- `EventFilterBuilder.__init__` (with `_initial_event_topic` and
`_init_argument_filters` inlined): non-anonymous descriptors store the
signature hash, anonymous ones store an empty list; one `ArgumentFilter`
per input, keyed by name. -/
def mkEventFilterBuilder (sig : EventABI → List Nat) (event_abi : EventABI) :
    EventFilterBuilder :=
  { event_abi := event_abi
    event_topic :=
      if event_abi.anonymous = false then EventTopicVal.hash (sig event_abi)
      else EventTopicVal.emptyList
    args := dictFromPairs (event_abi.inputs.map (fun item =>
      (item.name, mkArgumentFilter item.type item.name item.indexed))) }

/-- `valfilter(is_indexed, self.args)`. -/
def EventFilterBuilder.indexed_args (b : EventFilterBuilder) :
    List (String × ArgumentFilter) :=
  b.args.filter (fun kv => kv.2.is_indexed)

/-- `valfilter(not_indexed, self.args)`. -/
def EventFilterBuilder.data_args (b : EventFilterBuilder) :
    List (String × ArgumentFilter) :=
  b.args.filter (fun kv => !kv.2.is_indexed)

/-- An encoded match value as a topic position: `None` is the wildcard. -/
def optTopicPos : Option String → TopicPos
  | none => TopicPos.wild
  | some s => TopicPos.val s

/-- `EventFilterBuilder.topics`: cons `to_hex(event_topic)` onto the tuple
of each indexed matcher's `encoded_match_values` and normalize.  The
`to_hex` call raises before normalization when `event_topic` is the empty
list of an anonymous event. -/
def EventFilterBuilder.topics (b : EventFilterBuilder) :
    Except Err (List TopicPos) := do
  let arg_topics := b.indexed_args.map (fun kv =>
    TopicPos.orList (kv.2.encoded_match_values.map optTopicPos))
  let h ← toHexEventTopic b.event_topic
  pure (normalize_topic_list (TopicPos.val h :: arg_topics))

/-- Attribute access `arg.encoded_match_values` where `arg` is a string:
iterating the `data_args` dict yields its keys, and a `str` has no such
attribute. -/
def strEncodedMatchValuesAttr (_key : String) :
    Except Err (List (Option String)) :=
  Except.error
    (Err.attributeError "str object has no attribute encoded_match_values")

/-- `EventFilterBuilder.data_arguments`:
`tuple(arg.encoded_match_values for arg in self.data_args)` — the
generator iterates the dict itself, so each `arg` is a key string and the
attribute access raises on the first non-indexed input. -/
def EventFilterBuilder.data_arguments (b : EventFilterBuilder) :
    Except Err (List (List (Option String))) :=
  (b.data_args.map Prod.fst).mapM strEncodedMatchValuesAttr

/-- A raw log entry as delivered by the transport.  `data` is already a
byte string, on which `hexstr_if_str(to_bytes, .)` is the identity. -/
structure LogEntry where
  topics : List (List Nat)
  data : List Nat
  logIndex : Nat
  transactionIndex : Nat
  transactionHash : List Nat
  address : String
  blockHash : List Nat
  blockNumber : Nat
  deriving DecidableEq, Repr

/-- The decoded event returned by `get_event_data`
(`AttributeDict.recursive` only wraps the record read-only, which the
embedding leaves implicit).  `args` is the insertion-ordered name-to-value
dict. -/
structure DecodedEvent (α : Type) where
  args : List (String × α)
  event : String
  logIndex : Nat
  transactionIndex : Nat
  transactionHash : List Nat
  address : String
  blockHash : List Nat
  blockNumber : Nat

/-- Lines 164-171 of `get_event_data` in `web3/utils/events.py`: select the
indexed-argument topics, validating the signature topic of a non-anonymous
event. -/
def get_event_log_topics (sig : EventABI → List Nat) (event_abi : EventABI)
    (log_entry : LogEntry) : Except Err (List (List Nat)) :=
  if event_abi.anonymous then
    Except.ok log_entry.topics
  else
    match log_entry.topics with
    | [] =>
      Except.error
        (Err.mismatchedABI "Expected non-anonymous event to have 1 or more topics")
    | t0 :: rest =>
      if sig event_abi ≠ t0 then
        Except.error
          (Err.mismatchedABI "The event signature did not match the provided ABI")
      else
        Except.ok rest

/-- Lines 173-233 of `get_event_data` in `web3/utils/events.py`: decode
the given indexed-argument topics and the data payload against the
descriptor.  `decSingle`, `decAbi` and `norm` are the injected
`eth_abi.decode_single`, `eth_abi.decode_abi` and the standard return
normalizers; the duplicated-name `ValueError` carries the intersection of
the topic and data argument names (which Python renders from a set). -/
def decode_log_with_topics {α : Type} (decSingle : String → List Nat → α)
    (decAbi : List String → List Nat → List α) (norm : String → α → α)
    (event_abi : EventABI) (log_entry : LogEntry)
    (log_topics : List (List Nat)) : Except Err (DecodedEvent α) :=
  let log_topics_abi := getIndexedEventInputs event_abi
  let log_topic_normalized_inputs := normalizeEventInputTypes log_topics_abi
  let log_topic_types := get_event_abi_types_for_decoding log_topic_normalized_inputs
  let log_topic_names := getAbiInputNames log_topics_abi
  if log_topics.length ≠ log_topic_types.length then
    Except.error (Err.valueErrorCount log_topic_types.length log_topics.length)
  else
    let log_data := log_entry.data
    let log_data_abi := excludeIndexedEventInputs event_abi
    let log_data_normalized_inputs := normalizeEventInputTypes log_data_abi
    let log_data_types := get_event_abi_types_for_decoding log_data_normalized_inputs
    let log_data_names := getAbiInputNames log_data_abi
    let duplicate_names := log_topic_names.filter (fun n => log_data_names.contains n)
    if duplicate_names ≠ [] then
      Except.error (Err.valueErrorDup duplicate_names)
    else
      let decoded_log_data := decAbi log_data_types log_data
      let normalized_log_data := mapAbiData norm log_data_types decoded_log_data
      let decoded_topic_data :=
        (log_topic_types.zip log_topics).map (fun td => decSingle td.1 td.2)
      let normalized_topic_data := mapAbiData norm log_topic_types decoded_topic_data
      let event_args := dictFromPairs
        ((log_topic_names.zip normalized_topic_data) ++
          (log_data_names.zip normalized_log_data))
      Except.ok
        { args := event_args
          event := event_abi.name
          logIndex := log_entry.logIndex
          transactionIndex := log_entry.transactionIndex
          transactionHash := log_entry.transactionHash
          address := log_entry.address
          blockHash := log_entry.blockHash
          blockNumber := log_entry.blockNumber }

/-- `get_event_data` from `web3/utils/events.py`: validate and select the
indexed-argument topics, then decode them together with the data payload. -/
def get_event_data {α : Type} (sig : EventABI → List Nat)
    (decSingle : String → List Nat → α) (decAbi : List String → List Nat → List α)
    (norm : String → α → α) (event_abi : EventABI) (log_entry : LogEntry) :
    Except Err (DecodedEvent α) := do
  let log_topics ← get_event_log_topics sig event_abi log_entry
  decode_log_with_topics decSingle decAbi norm event_abi log_entry log_topics

/-- Deterministic stand-in for the external ABI encoding primitive, used to
instantiate the injected capabilities on concrete inputs. -/
def stubEncode : String → PyVal → List Nat := fun _ _ => [0, 1]

/-- Deterministic stand-in for the external Keccak-256 primitive. -/
def stubKeccak : List Nat → List Nat := fun _ => [2]

/-- Deterministic stand-in for `eth_utils.event_abi_to_log_topic`. -/
def stubSig : EventABI → List Nat := fun _ => [170]

/-- Deterministic stand-in for `eth_abi.decode_single`. -/
def stubDecodeSingle : String → List Nat → Nat := fun _ _ => 0

/-- Deterministic stand-in for `eth_abi.decode_abi`. -/
def stubDecodeAbi : List String → List Nat → List Nat :=
  fun types _ => types.map (fun _ => 0)

/-- Deterministic stand-in for the standard return normalizers. -/
def stubNorm : String → Nat → Nat := fun _ v => v

/-- C8: `normalize_topic_list` first replaces every single-element OR-list
position by its bare value and then trims trailing wildcards, preserving
interior ones; in particular `(None, None, [None])` normalizes to the empty
sequence and `(a, [b], None, c, None, None)` to `(a, b, None, c)`. -/
theorem normalize_topic_list_spec :
    (∀ seq : List TopicPos,
      normalize_topic_list seq = remove_trailing_from_seq (pop_singlets seq))
    ∧ normalize_topic_list
        [TopicPos.wild, TopicPos.wild, TopicPos.orList [TopicPos.wild]] = []
    ∧ ∀ a b c : String,
        normalize_topic_list
          [TopicPos.val a, TopicPos.orList [TopicPos.val b], TopicPos.wild,
            TopicPos.val c, TopicPos.wild, TopicPos.wild]
          = [TopicPos.val a, TopicPos.val b, TopicPos.wild, TopicPos.val c] :=
  ⟨fun _ => rfl, rfl, fun _ _ _ => rfl⟩

/-- A topic position as the claim ranges over them: a wildcard, a scalar
value, or an OR-list whose elements are themselves wildcards or scalar
values (no nested lists). -/
def TopicPos.isFlat : TopicPos → Bool
  | TopicPos.orList xs =>
    xs.all (fun x =>
      match x with
      | TopicPos.orList _ => false
      | _ => true)
  | _ => true

theorem popSinglet_popSinglet (p : TopicPos) (h : p.isFlat = true) :
    popSinglet (popSinglet p) = popSinglet p := by
  cases p with
  | wild => rfl
  | val s => rfl
  | orList xs =>
    match xs with
    | [] => rfl
    | [x] =>
      cases x with
      | wild => rfl
      | val s => rfl
      | orList ys =>
        exfalso
        simp [TopicPos.isFlat, List.all] at h
    | x :: y :: rest => rfl

theorem dropWhile_dropWhile {α : Type} (p : α → Bool) (l : List α) :
    (l.dropWhile p).dropWhile p = l.dropWhile p := by
  induction l with
  | nil => rfl
  | cons a l ih =>
    by_cases h : p a = true
    · simpa [List.dropWhile_cons, h] using ih
    · simp [List.dropWhile_cons, h]

theorem remove_trailing_idem (seq : List TopicPos) :
    remove_trailing_from_seq (remove_trailing_from_seq seq)
      = remove_trailing_from_seq seq := by
  simp [remove_trailing_from_seq, List.reverse_reverse, dropWhile_dropWhile]

theorem mem_remove_trailing {p : TopicPos} {seq : List TopicPos}
    (h : p ∈ remove_trailing_from_seq seq) : p ∈ seq := by
  have h1 : p ∈ seq.reverse.dropWhile TopicPos.isWild := by
    simpa [remove_trailing_from_seq] using h
  have h2 : p ∈ seq.reverse := (List.dropWhile_sublist _).mem h1
  simpa using h2

/-- C9: on position lists whose positions are wildcards, scalar values, or
OR-lists of values, `normalize_topic_list` is idempotent. -/
theorem normalize_topic_list_idem (seq : List TopicPos)
    (h : ∀ p ∈ seq, p.isFlat = true) :
    normalize_topic_list (normalize_topic_list seq) = normalize_topic_list seq := by
  have hfix : ∀ q ∈ remove_trailing_from_seq (pop_singlets seq),
      popSinglet q = q := by
    intro q hq
    have hq2 : q ∈ pop_singlets seq := mem_remove_trailing hq
    obtain ⟨p, hp, rfl⟩ := List.mem_map.mp hq2
    exact popSinglet_popSinglet p (h p hp)
  show remove_trailing_from_seq
      (pop_singlets (remove_trailing_from_seq (pop_singlets seq)))
    = remove_trailing_from_seq (pop_singlets seq)
  rw [show pop_singlets (remove_trailing_from_seq (pop_singlets seq))
      = remove_trailing_from_seq (pop_singlets seq) from by
    unfold pop_singlets
    calc (remove_trailing_from_seq (pop_singlets seq)).map popSinglet
        = (remove_trailing_from_seq (pop_singlets seq)).map id :=
          List.map_congr_left hfix
      _ = remove_trailing_from_seq (pop_singlets seq) := List.map_id _]
  exact remove_trailing_idem _

/-- Witness for the idempotence theorem at a concrete position list. -/
theorem normalize_topic_list_idem_witness :
    normalize_topic_list (normalize_topic_list
      [TopicPos.orList [TopicPos.val "0x01"], TopicPos.wild,
        TopicPos.orList [TopicPos.val "0x02", TopicPos.wild], TopicPos.wild])
    = normalize_topic_list
      [TopicPos.orList [TopicPos.val "0x01"], TopicPos.wild,
        TopicPos.orList [TopicPos.val "0x02", TopicPos.wild], TopicPos.wild] :=
  normalize_topic_list_idem _ (by
    intro p hp
    simp only [List.mem_cons, List.not_mem_nil, or_false] at hp
    rcases hp with rfl | rfl | rfl | rfl <;> rfl)

/-- C7 (amended): `raw_match_values` and `encoded_match_values` always have
equal length and are index-aligned in input order; the length is 1 after
construction and after `match_single`, and equals the number of supplied
values after `match_any` — zero values give length 0, not at least 1. -/
theorem argument_filter_length_invariants
    (enc : String → PyVal → List Nat) (kec : List Nat → List Nat)
    (ty nm : String) (ix : Bool) (v : PyVal) (vs : List PyVal) :
    ((mkArgumentFilter ty nm ix).raw_match_values.length = 1
      ∧ (mkArgumentFilter ty nm ix).encoded_match_values.length = 1)
    ∧ (((mkArgumentFilter ty nm ix).match_single enc kec v).raw_match_values = [v]
      ∧ ((mkArgumentFilter ty nm ix).match_single enc kec v).encoded_match_values
          = [some ((mkArgumentFilter ty nm ix).encodeValue enc kec v)])
    ∧ (((mkArgumentFilter ty nm ix).match_any enc kec vs).raw_match_values = vs
      ∧ ((mkArgumentFilter ty nm ix).match_any enc kec vs).encoded_match_values
          = vs.map (fun w => some ((mkArgumentFilter ty nm ix).encodeValue enc kec w))
      ∧ ((mkArgumentFilter ty nm ix).match_any enc kec vs).raw_match_values.length
          = ((mkArgumentFilter ty nm ix).match_any enc kec vs).encoded_match_values.length) := by
  refine ⟨⟨rfl, rfl⟩, ⟨rfl, rfl⟩, ?_, ?_, ?_⟩
  · exact List.map_id vs
  · show (vs.map pyNormalizeValue).map _ = _
    rw [List.map_map]
    rfl
  · show (vs.map pyNormalizeValue).length = ((vs.map pyNormalizeValue).map _).length
    rw [List.length_map, List.length_map, List.length_map]

/-- C7 counterexample: `match_any` called with zero values leaves both
value sequences empty, so their common length is 0, not at least 1. -/
theorem argument_filter_match_any_empty_cex :
    ((mkArgumentFilter "uint256" "arg" true).match_any stubEncode stubKeccak
        []).raw_match_values.length = 0
    ∧ ((mkArgumentFilter "uint256" "arg" true).match_any stubEncode stubKeccak
        []).encoded_match_values.length = 0 :=
  ⟨rfl, rfl⟩

/-- C2: an indexed matcher of a dynamically sized type encodes a value as
the hex rendering of the Keccak-256 hash of its ABI encoding — never the
raw encoding — while every other matcher encodes it as the hex rendering of
the raw ABI encoding; `match_single` and `match_any` store exactly these
encoded values. -/
theorem argument_filter_encode_rule
    (enc : String → PyVal → List Nat) (kec : List Nat → List Nat)
    (ty nm : String) (ix : Bool) (v : PyVal)
    (hv : validBytes (enc ty v)) (hk : validBytes (kec (enc ty v)))
    (hne : kec (enc ty v) ≠ enc ty v) :
    ((ix && is_dynamic_sized_type ty) = true →
      (mkArgumentFilter ty nm ix).encodeValue enc kec v
          = encodeHex (kec (enc ty v))
      ∧ (mkArgumentFilter ty nm ix).encodeValue enc kec v
          ≠ encodeHex (enc ty v))
    ∧ ((ix && is_dynamic_sized_type ty) = false →
      (mkArgumentFilter ty nm ix).encodeValue enc kec v = encodeHex (enc ty v))
    ∧ ((mkArgumentFilter ty nm ix).match_single enc kec v).encoded_match_values
        = [some ((mkArgumentFilter ty nm ix).encodeValue enc kec v)]
    ∧ ∀ vs : List PyVal,
        ((mkArgumentFilter ty nm ix).match_any enc kec vs).encoded_match_values
          = vs.map (fun w => some ((mkArgumentFilter ty nm ix).encodeValue enc kec w)) := by
  refine ⟨?_, ?_, rfl, ?_⟩
  · intro hdyn
    have heq : (mkArgumentFilter ty nm ix).encodeValue enc kec v
        = encodeHex (kec (enc ty v)) := by
      unfold ArgumentFilter.encodeValue mkArgumentFilter
      simp [hdyn]
    refine ⟨heq, ?_⟩
    rw [heq]
    intro hcontra
    exact hne (encodeHex_injOn _ _ hk hv hcontra)
  · intro hdyn
    unfold ArgumentFilter.encodeValue mkArgumentFilter
    simp [hdyn]
  · intro vs
    show (vs.map pyNormalizeValue).map _ = _
    rw [List.map_map]
    rfl

/-- Witness for the encoding rule at an indexed `string` matcher with the
stand-in primitives. -/
theorem argument_filter_encode_rule_witness :
    (mkArgumentFilter "string" "arg" true).encodeValue stubEncode stubKeccak
        (PyVal.str "pizza")
      = encodeHex (stubKeccak (stubEncode "string" (PyVal.str "pizza")))
    ∧ (mkArgumentFilter "string" "arg" true).encodeValue stubEncode stubKeccak
        (PyVal.str "pizza")
      ≠ encodeHex (stubEncode "string" (PyVal.str "pizza")) :=
  (argument_filter_encode_rule stubEncode stubKeccak "string" "arg" true
    (PyVal.str "pizza") (by simp [validBytes, stubEncode])
    (by simp [validBytes, stubKeccak]) (by decide)).1 (by decide)

/-- C1 (code bug): for an indexed parameter of dynamically sized type,
`construct_event_topic_set` places the hex rendering of the *raw* ABI
encoding into its topic vectors, not the hex rendering of the Keccak-256
hash that the §4.2 rule (implemented by `ArgumentFilter.encodeValue`)
produces — so the emitted value differs from the hashing rule's value. -/
theorem construct_event_topic_set_skips_hashing
    (enc : String → PyVal → List Nat) (kec : List Nat → List Nat)
    (sig : EventABI → List Nat) (s : String)
    (hv : validBytes (enc "string" (PyVal.str s)))
    (hk : validBytes (kec (enc "string" (PyVal.str s))))
    (hne : kec (enc "string" (PyVal.str s)) ≠ enc "string" (PyVal.str s)) :
    construct_event_topic_set enc sig
        (EventABI.mk "Deposit" false [InputParam.mk "value" "string" true])
        (Arguments.mapArgs [("value", PyVal.str s)])
      = Except.ok
          [[some (encodeHex (sig
              (EventABI.mk "Deposit" false [InputParam.mk "value" "string" true]))),
            some (encodeHex (enc "string" (PyVal.str s)))]]
    ∧ (mkArgumentFilter "string" "value" true).encodeValue enc kec (PyVal.str s)
        = encodeHex (kec (enc "string" (PyVal.str s)))
    ∧ encodeHex (enc "string" (PyVal.str s))
        ≠ (mkArgumentFilter "string" "value" true).encodeValue enc kec (PyVal.str s) := by
  refine ⟨rfl, ?_, ?_⟩
  · unfold ArgumentFilter.encodeValue mkArgumentFilter
    simp [show is_dynamic_sized_type "string" = true from by decide]
  · unfold ArgumentFilter.encodeValue mkArgumentFilter
    simp only [show is_dynamic_sized_type "string" = true from by decide,
      Bool.and_self, if_pos]
    intro hcontra
    exact hne (encodeHex_injOn _ _ hk hv hcontra.symm)

/-- Witness for the topic-set hashing divergence with the stand-in
primitives. -/
theorem construct_event_topic_set_skips_hashing_witness :
    construct_event_topic_set stubEncode stubSig
        (EventABI.mk "Deposit" false [InputParam.mk "value" "string" true])
        (Arguments.mapArgs [("value", PyVal.str "pizza")])
      = Except.ok
          [[some (encodeHex (stubSig
              (EventABI.mk "Deposit" false [InputParam.mk "value" "string" true]))),
            some (encodeHex (stubEncode "string" (PyVal.str "pizza")))]]
    ∧ (mkArgumentFilter "string" "value" true).encodeValue stubEncode stubKeccak
        (PyVal.str "pizza")
        = encodeHex (stubKeccak (stubEncode "string" (PyVal.str "pizza")))
    ∧ encodeHex (stubEncode "string" (PyVal.str "pizza"))
        ≠ (mkArgumentFilter "string" "value" true).encodeValue stubEncode stubKeccak
            (PyVal.str "pizza") :=
  construct_event_topic_set_skips_hashing stubEncode stubKeccak stubSig "pizza"
    (by simp [validBytes, stubEncode]) (by simp [validBytes, stubKeccak]) (by decide)

/-- C4 (code bug): for an anonymous event descriptor `_initial_event_topic`
returns an empty list, and the `topics` accessor then raises `TypeError`
inside `to_hex` instead of producing a topic list with no signature
position. -/
theorem builder_topics_anonymous_type_error
    (sig : EventABI → List Nat) (abi : EventABI) (h : abi.anonymous = true) :
    (mkEventFilterBuilder sig abi).topics
      = Except.error (Err.typeError "Unsupported type: list") := by
  unfold EventFilterBuilder.topics mkEventFilterBuilder
  simp [h, toHexEventTopic]

/-- Witness: the `topics` TypeError at a concrete anonymous descriptor. -/
theorem builder_topics_anonymous_type_error_witness :
    (mkEventFilterBuilder stubSig
        (EventABI.mk "Ping" true [InputParam.mk "a" "uint256" true])).topics
      = Except.error (Err.typeError "Unsupported type: list") :=
  builder_topics_anonymous_type_error stubSig
    (EventABI.mk "Ping" true [InputParam.mk "a" "uint256" true]) rfl

/-- C5 (code bug): `data_arguments` iterates the `data_args` dict itself,
so each iterated element is a key string; as soon as the descriptor has a
non-indexed input the attribute access on that string raises
`AttributeError` instead of returning the matchers' encoded values. -/
theorem builder_data_arguments_attribute_error
    (sig : EventABI → List Nat) (abi : EventABI)
    (h : 0 < (mkEventFilterBuilder sig abi).data_args.length) :
    (mkEventFilterBuilder sig abi).data_arguments
      = Except.error
          (Err.attributeError "str object has no attribute encoded_match_values") := by
  unfold EventFilterBuilder.data_arguments
  rcases hd : (mkEventFilterBuilder sig abi).data_args with _ | ⟨kv, rest⟩
  · rw [hd] at h
    exact absurd h (by simp)
  · rfl

/-- Witness: the `data_arguments` AttributeError at a descriptor with one
non-indexed input. -/
theorem builder_data_arguments_attribute_error_witness :
    (mkEventFilterBuilder stubSig
        (EventABI.mk "Transfer" false [InputParam.mk "amount" "uint256" false])).data_arguments
      = Except.error
          (Err.attributeError "str object has no attribute encoded_match_values") :=
  builder_data_arguments_attribute_error stubSig
    (EventABI.mk "Transfer" false [InputParam.mk "amount" "uint256" false])
    (by decide)

theorem decode_log_with_topics_no_mismatch {α : Type}
    (decSingle : String → List Nat → α) (decAbi : List String → List Nat → List α)
    (norm : String → α → α) (event_abi : EventABI) (log_entry : LogEntry)
    (log_topics : List (List Nat)) (m : String) :
    decode_log_with_topics decSingle decAbi norm event_abi log_entry log_topics
      ≠ Except.error (Err.mismatchedABI m) := by
  unfold decode_log_with_topics
  dsimp only
  split
  · intro hcontra
    simp at hcontra
  · split
    · intro hcontra
      simp at hcontra
    · intro hcontra
      simp at hcontra

/-- C3: for a non-anonymous descriptor, `get_event_data` fails with
`MismatchedABI` exactly when the log has no topics or its first topic is
not the descriptor's signature hash; otherwise decoding proceeds on
`topics[1:]`, and for an anonymous descriptor on all of `topics`. -/
theorem get_event_data_mismatched_iff {α : Type} (sig : EventABI → List Nat)
    (decSingle : String → List Nat → α) (decAbi : List String → List Nat → List α)
    (norm : String → α → α) (event_abi : EventABI) (log_entry : LogEntry) :
    (event_abi.anonymous = false →
      ((∃ m, get_event_data sig decSingle decAbi norm event_abi log_entry
          = Except.error (Err.mismatchedABI m))
        ↔ (log_entry.topics = []
            ∨ ∃ t0 rest, log_entry.topics = t0 :: rest ∧ sig event_abi ≠ t0)))
    ∧ (event_abi.anonymous = false → ∀ t0 rest,
        log_entry.topics = t0 :: rest → sig event_abi = t0 →
        get_event_data sig decSingle decAbi norm event_abi log_entry
          = decode_log_with_topics decSingle decAbi norm event_abi log_entry rest)
    ∧ (event_abi.anonymous = true →
        get_event_data sig decSingle decAbi norm event_abi log_entry
          = decode_log_with_topics decSingle decAbi norm event_abi log_entry
              log_entry.topics) := by
  refine ⟨?_, ?_, ?_⟩
  · intro hanon
    unfold get_event_data get_event_log_topics
    rw [hanon]
    simp only [Bool.false_eq_true, if_false]
    rcases htop : log_entry.topics with _ | ⟨t0, rest⟩
    · constructor
      · intro _
        exact Or.inl rfl
      · intro _
        exact ⟨"Expected non-anonymous event to have 1 or more topics", rfl⟩
    · dsimp only
      by_cases hsig : sig event_abi = t0
      · rw [if_neg (not_not_intro hsig)]
        constructor
        · intro hex
          obtain ⟨m, hm⟩ := hex
          exact absurd hm
            (decode_log_with_topics_no_mismatch decSingle decAbi norm event_abi
              log_entry rest m)
        · rintro (hnil | ⟨t0', rest', heq, hne⟩)
          · exact absurd hnil (List.cons_ne_nil t0 rest)
          · injection heq with h1 _
            exact absurd (h1 ▸ hsig) hne
      · rw [if_pos hsig]
        constructor
        · intro _
          exact Or.inr ⟨t0, rest, rfl, hsig⟩
        · intro _
          exact ⟨"The event signature did not match the provided ABI", rfl⟩
  · intro hanon t0 rest htop hsig
    unfold get_event_data get_event_log_topics
    rw [hanon, htop]
    simp only [Bool.false_eq_true, if_false]
    rw [if_neg (not_not_intro hsig)]
    rfl
  · intro hanon
    unfold get_event_data get_event_log_topics
    rw [hanon]
    rfl

/-- Witness: a non-anonymous descriptor and a topicless log produce a
`MismatchedABI` failure. -/
theorem get_event_data_mismatched_iff_witness :
    ∃ m, get_event_data stubSig stubDecodeSingle stubDecodeAbi stubNorm
        (EventABI.mk "E" false [])
        (LogEntry.mk [] [] 0 0 [] "0xaddr" [] 0)
      = Except.error (Err.mismatchedABI m) :=
  ((get_event_data_mismatched_iff stubSig stubDecodeSingle stubDecodeAbi stubNorm
      (EventABI.mk "E" false [])
      (LogEntry.mk [] [] 0 0 [] "0xaddr" [] 0)).1 rfl).mpr (Or.inl rfl)

/-- C6 counterexample: a descriptor whose indexed and non-indexed names
intersect, decoded against a topicless log, fails with `MismatchedABI` —
not with the duplicate-argument-name error, which the claim says is always
the failure. -/
theorem get_event_data_duplicate_names_cex :
    (getAbiInputNames (getIndexedEventInputs
        (EventABI.mk "E" false
          [InputParam.mk "a" "uint256" true, InputParam.mk "a" "uint256" false]))).filter
      (fun n => (getAbiInputNames (excludeIndexedEventInputs
        (EventABI.mk "E" false
          [InputParam.mk "a" "uint256" true, InputParam.mk "a" "uint256" false]))).contains n)
      = ["a"]
    ∧ get_event_data stubSig stubDecodeSingle stubDecodeAbi stubNorm
        (EventABI.mk "E" false
          [InputParam.mk "a" "uint256" true, InputParam.mk "a" "uint256" false])
        (LogEntry.mk [] [] 0 0 [] "0xaddr" [] 0)
      = Except.error
          (Err.mismatchedABI "Expected non-anonymous event to have 1 or more topics") :=
  ⟨rfl, rfl⟩

/-- C6 (amended): when the indexed and non-indexed parameter name sets
intersect, decoding never returns a `DecodedEvent`; it fails with the
duplicate-argument-name error once the signature-topic checks and the
topic-count check have passed, but a topicless or signature-mismatched log
fails first with `MismatchedABI`, and a wrong topic count first with the
count error. -/
theorem get_event_data_duplicate_names_amended {α : Type}
    (sig : EventABI → List Nat) (decSingle : String → List Nat → α)
    (decAbi : List String → List Nat → List α) (norm : String → α → α)
    (event_abi : EventABI) (log_entry : LogEntry)
    (hdup : (getAbiInputNames (getIndexedEventInputs event_abi)).filter
        (fun n => (getAbiInputNames (excludeIndexedEventInputs event_abi)).contains n)
        ≠ []) :
    (∀ d, get_event_data sig decSingle decAbi norm event_abi log_entry
        ≠ Except.ok d)
    ∧ (∀ lt, get_event_log_topics sig event_abi log_entry = Except.ok lt →
        lt.length = (get_event_abi_types_for_decoding
          (normalizeEventInputTypes (getIndexedEventInputs event_abi))).length →
        get_event_data sig decSingle decAbi norm event_abi log_entry
          = Except.error (Err.valueErrorDup
              ((getAbiInputNames (getIndexedEventInputs event_abi)).filter
                (fun n =>
                  (getAbiInputNames (excludeIndexedEventInputs event_abi)).contains n)))) := by
  have hdec : ∀ lt : List (List Nat),
      lt.length = (get_event_abi_types_for_decoding
        (normalizeEventInputTypes (getIndexedEventInputs event_abi))).length →
      decode_log_with_topics decSingle decAbi norm event_abi log_entry lt
        = Except.error (Err.valueErrorDup
            ((getAbiInputNames (getIndexedEventInputs event_abi)).filter
              (fun n =>
                (getAbiInputNames (excludeIndexedEventInputs event_abi)).contains n))) := by
    intro lt hlen
    unfold decode_log_with_topics
    dsimp only
    rw [if_neg (not_not_intro hlen), if_pos hdup]
  have hnever : ∀ lt : List (List Nat),
      ∀ d, decode_log_with_topics decSingle decAbi norm event_abi log_entry lt
        ≠ Except.ok d := by
    intro lt d
    unfold decode_log_with_topics
    dsimp only
    by_cases hlen : lt.length = (get_event_abi_types_for_decoding
        (normalizeEventInputTypes (getIndexedEventInputs event_abi))).length
    · rw [if_neg (not_not_intro hlen), if_pos hdup]
      intro hcontra
      simp at hcontra
    · rw [if_pos hlen]
      intro hcontra
      simp at hcontra
  constructor
  · intro d
    unfold get_event_data
    rcases hlt : get_event_log_topics sig event_abi log_entry with e | lt
    · exact fun hcontra => Except.noConfusion hcontra
    · exact hnever lt d
  · intro lt hlt hlen
    unfold get_event_data
    rw [hlt]
    exact hdec lt hlen

/-- Witness: the duplicate-argument-name failure once the earlier checks
pass, at a concrete descriptor and log. -/
theorem get_event_data_duplicate_names_amended_witness :
    get_event_data stubSig stubDecodeSingle stubDecodeAbi stubNorm
        (EventABI.mk "E" false
          [InputParam.mk "a" "uint256" true, InputParam.mk "a" "uint256" false])
        (LogEntry.mk [[170], [7]] [] 0 0 [] "0xaddr" [] 0)
      = Except.error (Err.valueErrorDup ["a"]) :=
  (get_event_data_duplicate_names_amended stubSig stubDecodeSingle stubDecodeAbi
      stubNorm
      (EventABI.mk "E" false
        [InputParam.mk "a" "uint256" true, InputParam.mk "a" "uint256" false])
      (LogEntry.mk [[170], [7]] [] 0 0 [] "0xaddr" [] 0)
      (by decide)).2 [[7]] rfl rfl

theorem alookup_map_pyListify (m : List (String × PyVal)) (n : String) :
    alookup (m.map (fun kv => (kv.1, pyListify kv.2))) n
      = (alookup m n).map pyListify := by
  induction m with
  | nil => rfl
  | cons kv rest ih =>
    by_cases h : kv.1 = n
    · simp [alookup, h]
    · simp [alookup, h, ih]

theorem encodedArgOptions_congr (enc : String → PyVal → List Nat)
    (params : List InputParam) (m1 m2 : List (String × PyVal))
    (h : ∀ arg ∈ params, alookup m1 arg.name = alookup m2 arg.name) :
    encodedArgOptions enc params (m1.map (fun kv => (kv.1, pyListify kv.2)))
      = encodedArgOptions enc params (m2.map (fun kv => (kv.1, pyListify kv.2))) := by
  unfold encodedArgOptions
  apply List.map_congr_left
  intro arg harg
  rw [alookupD, alookupD, alookup_map_pyListify, alookup_map_pyListify, h arg harg]

/-- C10: the topic-set builder reads the argument mapping only at the
indexed parameter names and the data-set builder only at the non-indexed
parameter names — mappings agreeing there (whatever their entries for the
other partition or for unknown names) give equal results. -/
theorem construct_sets_read_only_their_partition
    (enc : String → PyVal → List Nat) (sig : EventABI → List Nat)
    (abi : EventABI) (m1 m2 : List (String × PyVal)) :
    ((∀ arg ∈ getIndexedEventInputs abi, alookup m1 arg.name = alookup m2 arg.name) →
      construct_event_topic_set enc sig abi (Arguments.mapArgs m1)
        = construct_event_topic_set enc sig abi (Arguments.mapArgs m2))
    ∧ ((∀ arg ∈ excludeIndexedEventInputs abi, alookup m1 arg.name = alookup m2 arg.name) →
      construct_event_data_set enc abi (Arguments.mapArgs m1)
        = construct_event_data_set enc abi (Arguments.mapArgs m2)) := by
  constructor
  · intro h
    show Except.ok _ = Except.ok _
    rw [encodedArgOptions_congr enc (getIndexedEventInputs abi) m1 m2 h]
  · intro h
    show Except.ok _ = Except.ok _
    rw [encodedArgOptions_congr enc (excludeIndexedEventInputs abi) m1 m2 h]

/-- Witness: two mappings differing in a non-indexed entry and an unknown
name give the same topic set, and two differing in an indexed entry give
the same data set. -/
theorem construct_sets_read_only_their_partition_witness :
    construct_event_topic_set stubEncode stubSig
        (EventABI.mk "T" false
          [InputParam.mk "who" "address" true, InputParam.mk "amount" "uint256" false])
        (Arguments.mapArgs [("who", PyVal.int 1), ("amount", PyVal.int 2)])
      = construct_event_topic_set stubEncode stubSig
        (EventABI.mk "T" false
          [InputParam.mk "who" "address" true, InputParam.mk "amount" "uint256" false])
        (Arguments.mapArgs [("who", PyVal.int 1), ("amount", PyVal.int 9),
          ("unknown", PyVal.int 5)]) :=
  (construct_sets_read_only_their_partition stubEncode stubSig
      (EventABI.mk "T" false
        [InputParam.mk "who" "address" true, InputParam.mk "amount" "uint256" false])
      [("who", PyVal.int 1), ("amount", PyVal.int 2)]
      [("who", PyVal.int 1), ("amount", PyVal.int 9), ("unknown", PyVal.int 5)]).1
    (by
      intro arg harg
      simp only [getIndexedEventInputs, List.filter] at harg
      simp only [List.mem_cons, List.not_mem_nil, or_false] at harg
      subst harg
      rfl)
